import Mathlib

/-!
Verification of the jupiter-proxy quote-routing core.

The definitions below are a shallow embedding of the TypeScript sources:
  * `src/server.ts` — failover transport (`fetchWithFailover`), quote cache
    and the `/quote` handler;
  * `src/executors/*.ts` and the router file — the executor abstraction,
    `getRouteConfig`, `getBestQuote`, `executeSwap` (the revision in which
    Jupiter is the only transaction builder) and `getAllQuotes`.

Network I/O is modelled by explicit environments: a function from the
request data to the outcome of the underlying `fetch` call (a transport
error or an HTTP response carrying the decoded JSON fields the code reads).
JavaScript decimal amount strings are modelled as `String`; `numVal` models
`Number(s)` on canonical decimal strings (non-numeric strings collapse
to `0`, matching the guards that only compare against thresholds).
-/

/-- HttpResponse models the subset of a fetch `Response` the code reads:
its status and its body. -/
structure HttpResponse where
  status : Nat
  body : String
  deriving DecidableEq

/-- Models `Response.ok`: status in the range 200..299. -/
def respOk (r : HttpResponse) : Bool :=
  200 ≤ r.status && r.status ≤ 299

/-- Outcome of one `fetch` attempt: a transport-level failure (timeout,
connection error — the `catch` branch) or a response. -/
inductive FetchOutcome where
  | transportError
  | response (r : HttpResponse)
  deriving DecidableEq

/-- Reads a decimal digit string, accumulator-style; `none` on any
non-digit character. -/
def parseDigits : List Char → Nat → Option Nat
  | [], acc => some acc
  | c :: cs, acc =>
    if c.isDigit then parseDigits cs (acc * 10 + (c.toNat - 48)) else none

/-- Models `Number(s)` for the canonical decimal strings the backends emit;
any non-decimal string collapses to 0 (the code only compares these values
against thresholds, and `Number("") = 0` in JavaScript as well). -/
def numVal (s : String) : Nat :=
  (parseDigits s.data 0).getD 0

/-- fetchWithFailover from `src/server.ts` (lines 109–156): walk the URL
list in order; a 2xx response or an authoritative non-2xx other than 429
is returned at once, a 429 or a transport error moves on to the next URL,
and an exhausted list yields `none`.  The second component is the ordered
list of URLs actually attempted. -/
def fetchWithFailover (env : String → FetchOutcome) :
    List String → Option HttpResponse × List String
  | [] => (none, [])
  | u :: rest =>
    match env u with
    | FetchOutcome.transportError =>
      let r := fetchWithFailover env rest
      (r.1, u :: r.2)
    | FetchOutcome.response res =>
      if respOk res then (some res, [u])
      else if res.status == 429 then
        let r := fetchWithFailover env rest
        (r.1, u :: r.2)
      else (some res, [u])

/-- C2: the failover fetch returns the first 2xx immediately (attempting no
further URL), continues past a 429, returns any other non-2xx response
immediately, continues past a transport failure, and returns `none`
(Unavailable) when every URL yields a transport failure or a 429. -/
theorem fetchWithFailover_spec (env : String → FetchOutcome) :
    (∀ (u : String) (rest : List String) (r : HttpResponse),
        env u = FetchOutcome.response r → respOk r = true →
        fetchWithFailover env (u :: rest) = (some r, [u])) ∧
    (∀ (u : String) (rest : List String) (r : HttpResponse),
        env u = FetchOutcome.response r → r.status = 429 →
        fetchWithFailover env (u :: rest) =
          ((fetchWithFailover env rest).1, u :: (fetchWithFailover env rest).2)) ∧
    (∀ (u : String) (rest : List String) (r : HttpResponse),
        env u = FetchOutcome.response r → respOk r = false → r.status ≠ 429 →
        fetchWithFailover env (u :: rest) = (some r, [u])) ∧
    (∀ (u : String) (rest : List String),
        env u = FetchOutcome.transportError →
        fetchWithFailover env (u :: rest) =
          ((fetchWithFailover env rest).1, u :: (fetchWithFailover env rest).2)) ∧
    (∀ urls : List String,
        (∀ u ∈ urls, env u = FetchOutcome.transportError ∨
          ∃ r, env u = FetchOutcome.response r ∧ r.status = 429) →
        (fetchWithFailover env urls).1 = none) := by
  refine ⟨?_, ?_, ?_, ?_, ?_⟩
  · intro u rest r hu hok
    simp [fetchWithFailover, hu, hok]
  · intro u rest r hu h429
    have hnotok : respOk r = false := by
      simp [respOk, h429]
    simp [fetchWithFailover, hu, hnotok, h429]
  · intro u rest r hu hnotok hne
    simp [fetchWithFailover, hu, hnotok, hne]
  · intro u rest hu
    simp [fetchWithFailover, hu]
  · intro urls hall
    induction urls with
    | nil => simp [fetchWithFailover]
    | cons u rest ih =>
      have hrest : (fetchWithFailover env rest).1 = none := by
        apply ih
        intro v hv
        exact hall v (List.mem_cons_of_mem u hv)
      rcases hall u (List.mem_cons_self u rest) with herr | ⟨r, hr, h429⟩
      · simp [fetchWithFailover, herr, hrest]
      · have hnotok : respOk r = false := by
          simp [respOk, h429]
        simp [fetchWithFailover, hr, hnotok, h429, hrest]

/-- Concrete environment used to instantiate `fetchWithFailover_spec`:
the single URL answers 200. -/
def envAllOk : String → FetchOutcome :=
  fun _ => FetchOutcome.response (HttpResponse.mk 200 ("ok"))

/-- Witness for the failover specification at a concrete input: a single
URL answering 200 is returned immediately. -/
theorem fetchWithFailover_spec_witness :
    fetchWithFailover envAllOk [("u1")] =
      (some (HttpResponse.mk 200 ("ok")), [("u1")]) :=
  (fetchWithFailover_spec envAllOk).1 ("u1") [] (HttpResponse.mk 200 ("ok"))
    (by rfl) (by decide)

/-- Hop describes one entry of a quote's route plan.  The code only ever
tests the plan's length, so the hop payload is kept as two opaque strings
(the `source` field plus any extra data such as a pool or market id). -/
structure Hop where
  source : String
  info : String
  deriving DecidableEq

/-- JQuote is the decoded JSON body of a Jupiter quote response as the
`/quote` handler sees it: the handler inspects `routePlan` (absent, empty
or non-empty) and forwards the full payload unchanged. -/
structure JQuote where
  routePlan : Option (List Hop)
  payload : String
  deriving DecidableEq

/-- CachedQuote from `src/server.ts` line 99: `{ data, expires }`. -/
structure CachedQuote where
  data : JQuote
  expires : Nat
  deriving DecidableEq

/-- Query parameters of a `/quote` request (all arrive as strings). -/
structure QuoteRequest where
  inputMint : String
  outputMint : String
  amount : String
  slippageBps : String
  deriving DecidableEq

/-- cacheKey from `src/server.ts` line 102: the fingerprint
`inputMint:outputMint:amount:slippageBps`. -/
def cacheKey (p : QuoteRequest) : String :=
  p.inputMint ++ ":" ++ p.outputMint ++ ":" ++ p.amount ++ ":" ++ p.slippageBps

/-- Models `quoteCache.set key v` (a JS `Map` keyed by the fingerprint);
lookups read the most recent binding, so `set` is modelled by cons. -/
def cacheSet (key : String) (v : CachedQuote) (cache : List (String × CachedQuote)) :
    List (String × CachedQuote) :=
  (key, v) :: cache

/-- Reply of the `/quote` handler, reduced to the four shapes the code
sends: a 400 with an error code, a 502 `JUPITER_UNAVAILABLE`, a 200
`NO_ROUTE` body, or the quote JSON itself. -/
inductive QuoteReply where
  | badRequest (code : String)
  | unavailable
  | noRoute
  | success (q : JQuote)
  deriving DecidableEq

/-- JUPITER_QUOTE_ENDPOINTS from `src/server.ts` lines 49–52. -/
def jupiterQuoteEndpoints : List String :=
  [("https://api.jup.ag/swap/v1/quote"), ("https://quote-api.jup.ag/v6/quote")]

/-- Query string built at `src/server.ts` lines 368–374 (platformFeeBps is
the constant 50). -/
def quoteQuery (p : QuoteRequest) : String :=
  "inputMint=" ++ p.inputMint ++ "&outputMint=" ++ p.outputMint ++
    "&amount=" ++ p.amount ++ "&slippageBps=" ++ p.slippageBps ++
    "&platformFeeBps=50"

/-- The failover URLs the `/quote` handler builds for a request. -/
def quoteUrls (p : QuoteRequest) : List String :=
  jupiterQuoteEndpoints.map (fun ep => ep ++ "?" ++ quoteQuery p)

/-- handleQuoteCore is the `/quote` route of `src/server.ts` after its
input guards (lines 355–402): cache lookup (hit only when `expires > now`),
failover fetch, route-plan validation, and a 15s-TTL cache fill on
success.  `decode` models `response.json()`; the third result component
records whether the backend was contacted. -/
def handleQuoteCore (decode : String → JQuote) (env : String → FetchOutcome)
    (cache : List (String × CachedQuote)) (p : QuoteRequest) (now : Nat) :
    QuoteReply × List (String × CachedQuote) × Bool :=
  let key := cacheKey p
  let hit : Option JQuote :=
    match cache.lookup key with
    | some c => if c.expires > now then some c.data else none
    | none => none
  match hit with
  | some d => (QuoteReply.success d, cache, false)
  | none =>
    match (fetchWithFailover env (quoteUrls p)).1 with
    | none => (QuoteReply.unavailable, cache, true)
    | some r =>
      if !respOk r then (QuoteReply.noRoute, cache, true)
      else
        let q := decode r.body
        match q.routePlan with
        | none => (QuoteReply.noRoute, cache, true)
        | some [] => (QuoteReply.noRoute, cache, true)
        | some (_ :: _) =>
          (QuoteReply.success q,
            cacheSet key (CachedQuote.mk q (now + 15000)) cache, true)

/-- handleQuote is the whole `/quote` route of `src/server.ts` (lines
340–408): the three input guards followed by `handleQuoteCore`. -/
def handleQuote (decode : String → JQuote) (env : String → FetchOutcome)
    (cache : List (String × CachedQuote)) (p : QuoteRequest) (now : Nat) :
    QuoteReply × List (String × CachedQuote) × Bool :=
  if p.inputMint == "" || p.outputMint == "" then
    (QuoteReply.badRequest ("INVALID_PAIR"), cache, false)
  else if p.inputMint == p.outputMint then
    (QuoteReply.badRequest ("SAME_TOKEN"), cache, false)
  else if p.amount == "" || numVal p.amount == 0 then
    (QuoteReply.badRequest ("INVALID_AMOUNT"), cache, false)
  else handleQuoteCore decode env cache p now

/-- Input guards of the `/quote` handler, as a decidable predicate: none of
the three 400 branches fires. -/
def validReq (p : QuoteRequest) : Bool :=
  !(p.inputMint == "" || p.outputMint == "") &&
    !(p.inputMint == p.outputMint) &&
    !(p.amount == "" || numVal p.amount == 0)

/-- A request passing the input guards reaches the core handler. -/
theorem handleQuote_eq_core (decode : String → JQuote) (env : String → FetchOutcome)
    (cache : List (String × CachedQuote)) (p : QuoteRequest) (now : Nat)
    (hvalid : validReq p = true) :
    handleQuote decode env cache p now = handleQuoteCore decode env cache p now := by
  cases hg1 : (p.inputMint == "" || p.outputMint == "") with
  | true => rw [validReq, hg1] at hvalid; simp at hvalid
  | false =>
    cases hg2 : (p.inputMint == p.outputMint) with
    | true => rw [validReq, hg1, hg2] at hvalid; simp at hvalid
    | false =>
      cases hg3 : (p.amount == "" || numVal p.amount == 0) with
      | true => rw [validReq, hg1, hg2, hg3] at hvalid; simp at hvalid
      | false => simp [handleQuote, hg1, hg2, hg3]

/-- On a cache miss (no entry, or an entry at or past its expiry) the core
handler's answer is computed from the fresh failover fetch alone. -/
theorem handleQuoteCore_miss_eq (decode : String → JQuote) (env : String → FetchOutcome)
    (cache : List (String × CachedQuote)) (p : QuoteRequest) (now : Nat)
    (hmiss : cache.lookup (cacheKey p) = none ∨
      ∃ e, cache.lookup (cacheKey p) = some e ∧ e.expires ≤ now) :
    handleQuoteCore decode env cache p now =
      match (fetchWithFailover env (quoteUrls p)).1 with
      | none => (QuoteReply.unavailable, cache, true)
      | some r =>
        if !respOk r then (QuoteReply.noRoute, cache, true)
        else
          match (decode r.body).routePlan with
          | none => (QuoteReply.noRoute, cache, true)
          | some [] => (QuoteReply.noRoute, cache, true)
          | some (_ :: _) =>
            (QuoteReply.success (decode r.body),
              cacheSet (cacheKey p) (CachedQuote.mk (decode r.body) (now + 15000)) cache,
              true) := by
  rcases hmiss with hn | ⟨e, he, hle⟩
  · simp [handleQuoteCore, hn]
  · have hnlt : ¬ (e.expires > now) := by omega
    simp [handleQuoteCore, he, hnlt]

/-- On a cache miss the backend is contacted. -/
theorem handleQuoteCore_miss_called (decode : String → JQuote) (env : String → FetchOutcome)
    (cache : List (String × CachedQuote)) (p : QuoteRequest) (now : Nat)
    (hmiss : cache.lookup (cacheKey p) = none ∨
      ∃ e, cache.lookup (cacheKey p) = some e ∧ e.expires ≤ now) :
    (handleQuoteCore decode env cache p now).2.2 = true := by
  rw [handleQuoteCore_miss_eq decode env cache p now hmiss]
  split
  · rfl
  · split
    · rfl
    · split
      · rfl
      · rfl
      · rfl

/-- C3: the `/quote` cache serves a hit exactly when `now` is strictly
before the entry's expiry timestamp (creation time + 15s TTL), under the
fingerprint key of (inputMint, outputMint, amount, slippageBps); a call at
or after expiry contacts the backend and answers purely from the fresh
fetch, never from the stale entry; and a successful backend call fills the
cache so that a second call within the TTL window returns the identical
quote with no backend contact. -/
theorem quoteCache_ttl_spec (decode : String → JQuote) (env : String → FetchOutcome)
    (cache : List (String × CachedQuote)) (p : QuoteRequest) (now : Nat)
    (hvalid : validReq p = true) :
    (∀ e, cache.lookup (cacheKey p) = some e →
      ((now < e.expires →
          handleQuote decode env cache p now = (QuoteReply.success e.data, cache, false)) ∧
        (e.expires ≤ now → (handleQuote decode env cache p now).2.2 = true))) ∧
    ((cache.lookup (cacheKey p) = none ∨
        ∃ e, cache.lookup (cacheKey p) = some e ∧ e.expires ≤ now) →
      handleQuote decode env cache p now =
        match (fetchWithFailover env (quoteUrls p)).1 with
        | none => (QuoteReply.unavailable, cache, true)
        | some r =>
          if !respOk r then (QuoteReply.noRoute, cache, true)
          else
            match (decode r.body).routePlan with
            | none => (QuoteReply.noRoute, cache, true)
            | some [] => (QuoteReply.noRoute, cache, true)
            | some (_ :: _) =>
              (QuoteReply.success (decode r.body),
                cacheSet (cacheKey p) (CachedQuote.mk (decode r.body) (now + 15000)) cache,
                true)) ∧
    (∀ q cache2,
      handleQuote decode env cache p now = (QuoteReply.success q, cache2, true) →
      ∀ (decode2 : String → JQuote) (env2 : String → FetchOutcome) (t2 : Nat),
        t2 < now + 15000 →
        handleQuote decode2 env2 cache2 p t2 = (QuoteReply.success q, cache2, false)) := by
  refine ⟨?_, ?_, ?_⟩
  · intro e he
    constructor
    · intro hlt
      rw [handleQuote_eq_core decode env cache p now hvalid]
      simp [handleQuoteCore, he, hlt]
    · intro hle
      rw [handleQuote_eq_core decode env cache p now hvalid]
      exact handleQuoteCore_miss_called decode env cache p now (Or.inr ⟨e, he, hle⟩)
  · intro hmiss
    rw [handleQuote_eq_core decode env cache p now hvalid]
    exact handleQuoteCore_miss_eq decode env cache p now hmiss
  · intro q cache2 hfirst decode2 env2 t2 ht2
    rw [handleQuote_eq_core decode env cache p now hvalid] at hfirst
    by_cases hhit : ∃ c, cache.lookup (cacheKey p) = some c ∧ now < c.expires
    · obtain ⟨c, hc, hlt⟩ := hhit
      have heq : handleQuoteCore decode env cache p now =
          (QuoteReply.success c.data, cache, false) := by
        simp [handleQuoteCore, hc, hlt]
      rw [heq] at hfirst
      simp [Prod.ext_iff] at hfirst
    · have hmiss : cache.lookup (cacheKey p) = none ∨
          ∃ e, cache.lookup (cacheKey p) = some e ∧ e.expires ≤ now := by
        cases hlk : cache.lookup (cacheKey p) with
        | none => exact Or.inl rfl
        | some c =>
          right
          refine ⟨c, rfl, ?_⟩
          by_contra hgt
          exact hhit ⟨c, hlk, by omega⟩
      rw [handleQuoteCore_miss_eq decode env cache p now hmiss] at hfirst
      cases hfr : (fetchWithFailover env (quoteUrls p)).1 with
      | none => rw [hfr] at hfirst; simp [Prod.ext_iff] at hfirst
      | some r =>
        rw [hfr] at hfirst
        cases hok : respOk r with
        | false => simp [hok, Prod.ext_iff] at hfirst
        | true =>
          simp only [hok, Bool.not_true, Bool.false_eq_true, if_false] at hfirst
          cases hrp : (decode r.body).routePlan with
          | none => rw [hrp] at hfirst; simp [Prod.ext_iff] at hfirst
          | some l =>
            cases l with
            | nil => rw [hrp] at hfirst; simp [Prod.ext_iff] at hfirst
            | cons h t =>
              rw [hrp] at hfirst
              simp only [Prod.mk.injEq, QuoteReply.success.injEq] at hfirst
              obtain ⟨hq, hc2, -⟩ := hfirst
              subst hq
              rw [handleQuote_eq_core decode2 env2 cache2 p t2 hvalid]
              rw [← hc2]
              simp [handleQuoteCore, cacheSet, List.lookup, ht2]

/-- Concrete request used to instantiate the cache specification. -/
def p0 : QuoteRequest :=
  { inputMint := "A", outputMint := "B", amount := "100", slippageBps := "50" }

/-- Concrete decoded quote used to instantiate the cache specification. -/
def q0 : JQuote :=
  { routePlan := some [{ source := "h", info := "" }], payload := "pay" }

/-- Concrete decoder: every body decodes to `q0`. -/
def decode0 : String → JQuote := fun _ => q0

/-- Concrete backend: every URL answers 200. -/
def env0 : String → FetchOutcome :=
  fun _ => FetchOutcome.response { status := 200, body := "b" }

/-- The cache state produced by a first successful `/quote` call at time 0. -/
def cacheAfter0 : List (String × CachedQuote) :=
  [(cacheKey p0, { data := q0, expires := 15000 })]

/-- Witness for the cache specification at concrete inputs: after a
successful call at time 0, a second call at time 10000 (inside the 15s
TTL) returns the identical quote without contacting the backend. -/
theorem quoteCache_ttl_spec_witness :
    handleQuote decode0 env0 cacheAfter0 p0 10000 =
      (QuoteReply.success q0, cacheAfter0, false) :=
  (quoteCache_ttl_spec decode0 env0 [] p0 0 (by decide)).2.2 q0 cacheAfter0
    (by decide) decode0 env0 10000 (by decide)

/-- SOL_MINT from `src/executors/types.ts`. -/
def SOL_MINT : String := "So11111111111111111111111111111111111111112"

/-- USDC_MINT from `src/executors/types.ts`. -/
def USDC_MINT : String := "EPjFWdd5AufqSSqeM2qN1xzybapC8G4wEGGkZwyTDt1v"

/-- USDT_MINT from `src/executors/types.ts`. -/
def USDT_MINT : String := "Es9vMFrzaCERmJfrF4H2FYD4KCoNkY11McCe8BenwNYB"

/-- Name of the Jupiter (aggregator) executor. -/
def jupiterName : String := "jupiter"

/-- Name of the Raydium executor. -/
def raydiumName : String := "raydium"

/-- Name of the Orca executor. -/
def orcaName : String := "orca"

/-- Name of the Phoenix executor. -/
def phoenixName : String := "phoenix"

/-- Name of the OpenBook executor. -/
def openbookName : String := "openbook"

/-- SwapParams from `src/executors/types.ts`: the amount is a base-unit
decimal string.  The optional `userPublicKey` member is never read by the
routing code and is omitted. -/
structure SwapParams where
  inputMint : String
  outputMint : String
  amount : String
  slippageBps : Nat
  deriving DecidableEq

/-- A market row of the PHOENIX_MARKETS / OPENBOOK_MARKETS tables. -/
structure MarketRow where
  name : String
  base : String
  quote : String
  address : String
  deriving DecidableEq

/-- The value `findMarket` builds: its row spread together with the row
key (`name`) and the trade side (`isBuy`). -/
structure Market where
  name : String
  base : String
  quote : String
  address : String
  isBuy : Bool
  deriving DecidableEq

/-- RawPayload models the opaque `_raw` member of a Quote: the provider's
response payload (kept as an opaque string) plus, for Phoenix, the market
object merged into it (`_raw: { ...data, market }`). -/
structure RawPayload where
  payload : String
  market : Option Market
  deriving DecidableEq

/-- Quote from `src/executors/types.ts`; `raw` models the optional `_raw`
member. -/
structure Quote where
  source : String
  inputMint : String
  outputMint : String
  inAmount : String
  outAmount : String
  priceImpactPct : String
  slippageBps : Nat
  routePlan : List Hop
  raw : Option RawPayload
  deriving DecidableEq

/-- SwapResult from `src/executors/types.ts`. -/
structure SwapResult where
  swapTransaction : String
  source : String
  deriving DecidableEq

/-- Models the JavaScript `x || dflt` idiom on an optional string field:
an absent or empty string falls back to the default. -/
def strOr (s : Option String) (dflt : String) : String :=
  match s with
  | none => dflt
  | some t => if t == "" then dflt else t

/-- Models `response.ok` for a bare status number. -/
def statusOk (status : Nat) : Bool :=
  200 ≤ status && status ≤ 299

/-- Decoded JSON fields of a Jupiter quote response that
`JupiterExecutor.quote` reads; `raw` stands for the whole payload that the
executor keeps as `_raw`.  `outAmount` and `routePlan` are optional to
model absent JSON members. -/
structure JupQuoteData where
  inAmount : String
  outAmount : Option String
  priceImpactPct : Option String
  routePlan : Option (List Hop)
  raw : String
  deriving DecidableEq

/-- Outcome of the Jupiter quote fetch; thrown errors and timeouts are the
`failure` case (the executor's `catch` collapses them to null). -/
inductive JupFetch where
  | failure
  | resp (status : Nat) (data : JupQuoteData)
  deriving DecidableEq

/-- Outcome of a transaction-build POST; carries the optional
`swapTransaction` / `transaction` field of the decoded body. -/
inductive TxFetch where
  | failure
  | resp (status : Nat) (transaction : Option String)
  deriving DecidableEq

/-- JupiterExecutor.canHandle from `src/executors/jupiter.ts`: refuse dust
amounts below 1000 base units. -/
def jupiterCanHandle (params : SwapParams) : Bool :=
  if numVal params.amount < 1000 then false else true

/-- JupiterExecutor.quote from `src/executors/jupiter.ts` (lines 21–74):
any non-2xx status (429 included) is null; a missing/empty/zero `outAmount`
or a missing/empty `routePlan` is no-route; otherwise the quote is built
with source `jupiter` and the raw payload attached. -/
def jupiterQuote (env : SwapParams → JupFetch) (params : SwapParams) : Option Quote :=
  match env params with
  | JupFetch.failure => none
  | JupFetch.resp status d =>
    if !statusOk status then none
    else
      match d.outAmount with
      | none => none
      | some s =>
        if s == "" || s == "0" then none
        else
          match d.routePlan with
          | none => none
          | some [] => none
          | some (h :: t) =>
            some { source := jupiterName, inputMint := params.inputMint,
                   outputMint := params.outputMint, inAmount := d.inAmount,
                   outAmount := s, priceImpactPct := strOr d.priceImpactPct ("0"),
                   slippageBps := params.slippageBps, routePlan := h :: t,
                   raw := some { payload := d.raw, market := none } }

/-- JupiterExecutor.swap from `src/executors/jupiter.ts` (lines 76–120):
null without a `_raw` payload; otherwise POST the payload and the wallet
key, null on any non-2xx or a missing `swapTransaction`, else a
SwapResult with source `jupiter`. -/
def jupiterSwap (envS : RawPayload → String → TxFetch) (quote : Quote)
    (userPublicKey : String) : Option SwapResult :=
  match quote.raw with
  | none => none
  | some raw =>
    match envS raw userPublicKey with
    | TxFetch.failure => none
    | TxFetch.resp status tx =>
      if !statusOk status then none
      else
        match tx with
        | none => none
        | some t =>
          if t == "" then none
          else some { swapTransaction := t, source := jupiterName }

/-- Decoded `data` object of a Raydium compute response (the fields
`RaydiumExecutor.quote` reads); `raw` stands for the whole response kept
as `_raw`.  The numeric `priceImpactPct` is modelled as its decimal
rendering, absent collapsing to the default. -/
structure RayQuoteData where
  inputAmount : String
  outputAmount : Option String
  priceImpactPct : Option String
  routePlan : Option (List Hop)
  raw : String
  deriving DecidableEq

/-- Outcome of the Raydium quote fetch: a thrown error, or a response with
its status, its `success` flag and its optional `data` object. -/
inductive RayFetch where
  | failure
  | resp (status : Nat) (success : Bool) (data : Option RayQuoteData)
  deriving DecidableEq

/-- RaydiumExecutor.canHandle: always true. -/
def raydiumCanHandle (_params : SwapParams) : Bool := true

/-- RaydiumExecutor.quote, quote-only revision (lines 30–80): non-2xx,
missing `success`/`data`, empty or zero output are null, and any route
plan whose length differs from 1 is rejected (single-hop only). -/
def raydiumQuote (env : SwapParams → RayFetch) (params : SwapParams) : Option Quote :=
  match env params with
  | RayFetch.failure => none
  | RayFetch.resp status success d =>
    if !statusOk status then none
    else if !success then none
    else
      match d with
      | none => none
      | some qd =>
        match qd.outputAmount with
        | none => none
        | some s =>
          if s == "" || s == "0" then none
          else
            match qd.routePlan with
            | none => none
            | some plan =>
              if plan.length != 1 then none
              else
                some { source := raydiumName, inputMint := params.inputMint,
                       outputMint := params.outputMint, inAmount := qd.inputAmount,
                       outAmount := s, priceImpactPct := strOr qd.priceImpactPct ("0"),
                       slippageBps := params.slippageBps, routePlan := plan,
                       raw := some { payload := qd.raw, market := none } }

/-- RaydiumExecutor.swap, quote-only revision (lines 83–86): Raydium does
not build transactions — unconditionally null. -/
def raydiumSwap (_quote : Quote) (_userPublicKey : String) : Option SwapResult :=
  none

/-- Decoded fields of an Orca whirlpool quote response. -/
structure OrcaQuoteData where
  estimatedAmountOut : Option String
  priceImpact : Option String
  whirlpool : String
  raw : String
  deriving DecidableEq

/-- Outcome of the Orca quote fetch. -/
inductive OrcaFetch where
  | failure
  | resp (status : Nat) (data : OrcaQuoteData)
  deriving DecidableEq

/-- OrcaExecutor.canHandle: always true. -/
def orcaCanHandle (_params : SwapParams) : Bool := true

/-- OrcaExecutor.quote from `src/executors/orca.ts` (lines 18–58): non-2xx
or an absent/empty/zero `estimatedAmountOut` is null; otherwise a quote
with a synthetic single-hop route plan naming the whirlpool. -/
def orcaQuote (env : SwapParams → OrcaFetch) (params : SwapParams) : Option Quote :=
  match env params with
  | OrcaFetch.failure => none
  | OrcaFetch.resp status d =>
    if !statusOk status then none
    else
      match d.estimatedAmountOut with
      | none => none
      | some s =>
        if s == "" || s == "0" then none
        else
          some { source := orcaName, inputMint := params.inputMint,
                 outputMint := params.outputMint, inAmount := params.amount,
                 outAmount := s, priceImpactPct := strOr d.priceImpact ("0"),
                 slippageBps := params.slippageBps,
                 routePlan := [{ source := "orca-whirlpool", info := d.whirlpool }],
                 raw := some { payload := d.raw, market := none } }

/-- OrcaExecutor.swap from `src/executors/orca.ts` (lines 60–95): POST the
quote's raw payload and the wallet key; on a 2xx with a `transaction`
field it returns a SwapResult with source `orca` — it does NOT return null
unconditionally. -/
def orcaSwap (envS : Option RawPayload → String → TxFetch) (quote : Quote)
    (userPublicKey : String) : Option SwapResult :=
  match envS quote.raw userPublicKey with
  | TxFetch.failure => none
  | TxFetch.resp status tx =>
    if !statusOk status then none
    else
      match tx with
      | none => none
      | some t =>
        if t == "" then none
        else some { swapTransaction := t, source := orcaName }

/-- PHOENIX_MARKETS from `src/executors/phoenix.ts` lines 9–20. -/
def PHOENIX_MARKETS : List MarketRow :=
  [{ name := "SOL/USDC", base := SOL_MINT, quote := USDC_MINT,
     address := "4DoNfFBfF7UokCC2FQzriy7yHK6DY6NVdYpuekQ5pRgg" },
   { name := "SOL/USDT", base := SOL_MINT, quote := USDT_MINT,
     address := "4xPpRp3u7vP8BWSxfvPFQW7zNcZ9NVLwTDMjFkJvoQwF" }]

/-- findMarket shared by the Phoenix and OpenBook executors: scan the
market table for the pair in either direction; the side is a buy when the
input mint is the quote currency. -/
def findMarket (markets : List MarketRow) (inputMint outputMint : String) :
    Option Market :=
  match markets with
  | [] => none
  | m :: rest =>
    if (m.base == inputMint && m.quote == outputMint) ||
        (m.quote == inputMint && m.base == outputMint) then
      some { name := m.name, base := m.base, quote := m.quote,
             address := m.address, isBuy := m.quote == inputMint }
    else findMarket rest inputMint outputMint

/-- PhoenixExecutor.canHandle: the pair must be in the market table. -/
def phoenixCanHandle (params : SwapParams) : Bool :=
  (findMarket PHOENIX_MARKETS params.inputMint params.outputMint).isSome

/-- Decoded fields of a Phoenix order-book quote response. -/
structure PhxQuoteData where
  expectedOutput : Option String
  priceImpact : Option String
  raw : String
  deriving DecidableEq

/-- Outcome of the Phoenix quote fetch. -/
inductive PhxFetch where
  | failure
  | resp (status : Nat) (data : PhxQuoteData)
  deriving DecidableEq

/-- PhoenixExecutor.quote from `src/executors/phoenix.ts` (lines 43–87):
null without a market; otherwise fetch the order-book quote, null on a
non-2xx or an absent/empty/zero `expectedOutput`, else a single-hop quote
whose raw payload carries the market object. -/
def phoenixQuote (env : SwapParams → PhxFetch) (params : SwapParams) : Option Quote :=
  match findMarket PHOENIX_MARKETS params.inputMint params.outputMint with
  | none => none
  | some market =>
    match env params with
    | PhxFetch.failure => none
    | PhxFetch.resp status d =>
      if !statusOk status then none
      else
        match d.expectedOutput with
        | none => none
        | some s =>
          if s == "" || s == "0" then none
          else
            some { source := phoenixName, inputMint := params.inputMint,
                   outputMint := params.outputMint, inAmount := params.amount,
                   outAmount := s, priceImpactPct := strOr d.priceImpact ("0"),
                   slippageBps := params.slippageBps,
                   routePlan := [{ source := phoenixName, info := market.name }],
                   raw := some { payload := d.raw, market := some market } }

/-- PhoenixExecutor.swap from `src/executors/phoenix.ts` (lines 89–132):
null without the market stored in `_raw`; otherwise POST to the market's
swap endpoint and, on a 2xx with a `transaction` field, return a
SwapResult with source `phoenix`. -/
def phoenixSwap (envS : Market → String → String → Nat → TxFetch) (quote : Quote)
    (userPublicKey : String) : Option SwapResult :=
  match quote.raw with
  | none => none
  | some raw =>
    match raw.market with
    | none => none
    | some market =>
      match envS market userPublicKey quote.inAmount quote.slippageBps with
      | TxFetch.failure => none
      | TxFetch.resp status tx =>
        if !statusOk status then none
        else
          match tx with
          | none => none
          | some t =>
            if t == "" then none
            else some { swapTransaction := t, source := phoenixName }

/-- OPENBOOK_MARKETS from the OpenBook executor (lines 9–15). -/
def OPENBOOK_MARKETS : List MarketRow :=
  [{ name := "SOL/USDC", base := SOL_MINT, quote := USDC_MINT,
     address := "CFSMrBssNG8Ud1edW59jNLnq2cwrQ9uY5cM3wXmqRJj3" }]

/-- OpenBookExecutor.canHandle: the pair must be in the market table. -/
def openbookCanHandle (params : SwapParams) : Bool :=
  (findMarket OPENBOOK_MARKETS params.inputMint params.outputMint).isSome

/-- OpenBookExecutor.quote (lines 38–59): a placeholder that always
returns null (OpenBook routes are reached through Jupiter). -/
def openbookQuote (params : SwapParams) : Option Quote :=
  match findMarket OPENBOOK_MARKETS params.inputMint params.outputMint with
  | none => none
  | some _ => none

/-- OpenBookExecutor.swap (lines 61–65): unconditionally null. -/
def openbookSwap (_quote : Quote) (_userPublicKey : String) : Option SwapResult :=
  none

/-- The SwapExecutor interface from `src/executors/types.ts`. -/
structure Executor where
  name : String
  canHandle : SwapParams → Bool
  quote : SwapParams → Option Quote
  swap : Quote → String → Option SwapResult

/-- RouterEnv bundles the network environments of every executor (one
function per outbound HTTP call the executors make). -/
structure RouterEnv where
  jupQuoteF : SwapParams → JupFetch
  jupSwapF : RawPayload → String → TxFetch
  rayQuoteF : SwapParams → RayFetch
  orcaQuoteF : SwapParams → OrcaFetch
  orcaSwapF : Option RawPayload → String → TxFetch
  phxQuoteF : SwapParams → PhxFetch
  phxSwapF : Market → String → String → Nat → TxFetch

/-- The Jupiter executor instance. -/
def jupiterExecutor (env : RouterEnv) : Executor :=
  { name := jupiterName, canHandle := jupiterCanHandle,
    quote := jupiterQuote env.jupQuoteF, swap := jupiterSwap env.jupSwapF }

/-- The Raydium executor instance (quote-only revision). -/
def raydiumExecutor (env : RouterEnv) : Executor :=
  { name := raydiumName, canHandle := raydiumCanHandle,
    quote := raydiumQuote env.rayQuoteF, swap := raydiumSwap }

/-- The Orca executor instance. -/
def orcaExecutor (env : RouterEnv) : Executor :=
  { name := orcaName, canHandle := orcaCanHandle,
    quote := orcaQuote env.orcaQuoteF, swap := orcaSwap env.orcaSwapF }

/-- The Phoenix executor instance. -/
def phoenixExecutor (env : RouterEnv) : Executor :=
  { name := phoenixName, canHandle := phoenixCanHandle,
    quote := phoenixQuote env.phxQuoteF, swap := phoenixSwap env.phxSwapF }

/-- The OpenBook executor instance. -/
def openbookExecutor : Executor :=
  { name := openbookName, canHandle := openbookCanHandle,
    quote := openbookQuote, swap := openbookSwap }

/-- The router's executor list (router file lines 87–93), in priority
order: jupiter, raydium, orca, phoenix, openbook. -/
def executors (env : RouterEnv) : List Executor :=
  [jupiterExecutor env, raydiumExecutor env, orcaExecutor env,
   phoenixExecutor env, openbookExecutor]

/-- SMALL_AMOUNT_THRESHOLD from the router file (0.5 USDC in base units). -/
def SMALL_AMOUNT_THRESHOLD : Nat := 500000

/-- MIN_LIQUIDITY_THRESHOLD from the router file ($50,000 worth). -/
def MIN_LIQUIDITY_THRESHOLD : Nat := 50000000000

/-- RouteConfig from the router file: computed per request, never stored. -/
structure RouteConfig where
  skipJupiter : Bool
  preferSingleHop : Bool
  executorOrder : List String
  deriving DecidableEq

/-- Default executor order (router line 115). -/
def defaultOrder : List String :=
  [jupiterName, raydiumName, orcaName, phoenixName, openbookName]

/-- Order used for small amounts (router line 123). -/
def smallAmountOrder : List String :=
  [raydiumName, orcaName, phoenixName, jupiterName, openbookName]

/-- Order used for fresh tokens (router line 130). -/
def freshTokenOrder : List String :=
  [raydiumName, orcaName, jupiterName, phoenixName, openbookName]

/-- Order used for low liquidity (router line 137). -/
def lowLiquidityOrder : List String :=
  [raydiumName, orcaName, phoenixName, jupiterName, openbookName]

/-- Order used for stable pairs (router line 143). -/
def stablePairOrder : List String :=
  [phoenixName, jupiterName, raydiumName, orcaName, openbookName]

/-- Stable-pair test of getRouteConfig: both mints are USDC or USDT. -/
def isStablePair (params : SwapParams) : Bool :=
  (params.inputMint == USDC_MINT || params.inputMint == USDT_MINT) &&
    (params.outputMint == USDC_MINT || params.outputMint == USDT_MINT)

/-- getRouteConfig from the router file (lines 108–147): the four
heuristic rules are applied in sequence, each later rule overwriting the
executor order wholesale while the boolean flags accumulate. -/
def getRouteConfig (params : SwapParams) (tokenAge : Option Nat)
    (liquidity : Option Nat) : RouteConfig :=
  let amount := numVal params.amount
  let base : RouteConfig :=
    { skipJupiter := false, preferSingleHop := false, executorOrder := defaultOrder }
  let c1 :=
    if amount < SMALL_AMOUNT_THRESHOLD then
      { base with skipJupiter := true, executorOrder := smallAmountOrder }
    else base
  let c2 :=
    match tokenAge with
    | some t =>
      if t < 48 * 60 * 60 * 1000 then
        { c1 with skipJupiter := true, executorOrder := freshTokenOrder }
      else c1
    | none => c1
  let c3 :=
    match liquidity with
    | some l =>
      if l < MIN_LIQUIDITY_THRESHOLD then
        { c2 with preferSingleHop := true, executorOrder := lowLiquidityOrder }
      else c2
    | none => c2
  if isStablePair params then { c3 with executorOrder := stablePairOrder } else c3

/-- The router's acceptance test for a quote
(`quote && quote.outAmount && quote.outAmount !== '0'`). -/
def goodQuote (q : Quote) : Bool :=
  q.outAmount != "" && q.outAmount != "0"

/-- The executor walk of getBestQuote (router lines 163–191): find each
named executor, skip Jupiter when configured, skip executors whose
canHandle is false, and return the first good quote.  The second
component is the ordered list of executor names whose `quote` was
actually invoked. -/
def walkExecutors (execs : List Executor) (skipJup : Bool) (params : SwapParams) :
    List String → Option Quote × List String
  | [] => (none, [])
  | n :: rest =>
    match execs.find? (fun e => e.name == n) with
    | none => walkExecutors execs skipJup params rest
    | some ex =>
      if skipJup && n == jupiterName then walkExecutors execs skipJup params rest
      else if !ex.canHandle params then walkExecutors execs skipJup params rest
      else
        match ex.quote params with
        | some q =>
          if goodQuote q then (some q, [n])
          else
            let r := walkExecutors execs skipJup params rest
            (r.1, n :: r.2)
        | none =>
          let r := walkExecutors execs skipJup params rest
          (r.1, n :: r.2)

/-- getBestQuote from the router file (lines 152–195): compute the route
config, then walk the executor order.  The second component is the trace
of executors whose `quote` was invoked. -/
def getBestQuote (execs : List Executor) (params : SwapParams)
    (tokenAge : Option Nat) (liquidity : Option Nat) : Option Quote × List String :=
  let config := getRouteConfig params tokenAge liquidity
  walkExecutors execs config.skipJupiter params config.executorOrder

/-- A call the Execution Delegate makes against Jupiter: a re-quote or a
transaction build. -/
inductive ExecCall where
  | requote (p : SwapParams)
  | build (q : Quote)
  deriving DecidableEq

/-- The re-quote parameters executeSwap derives from a winning quote
(router lines 227–232): the quote's mints, its input amount and its
slippage. -/
def requoteParams (quote : Quote) : SwapParams :=
  { inputMint := quote.inputMint, outputMint := quote.outputMint,
    amount := quote.inAmount, slippageBps := quote.slippageBps }

/-- executeSwap from the router file (lines 203–241, the revision in
which Jupiter is the only transaction builder): a Jupiter-sourced quote
with its raw payload is built directly; any other quote triggers one
re-quote against Jupiter, and a failed re-quote is terminal.  The second
component is the trace of Jupiter calls made. -/
def executeSwap (env : RouterEnv) (quote : Quote) (userPublicKey : String) :
    Option SwapResult × List ExecCall :=
  match (executors env).find? (fun e => e.name == jupiterName) with
  | none => (none, [])
  | some jup =>
    if quote.source == jupiterName && quote.raw.isSome then
      (jup.swap quote userPublicKey, [ExecCall.build quote])
    else
      match jup.quote (requoteParams quote) with
      | none => (none, [ExecCall.requote (requoteParams quote)])
      | some fresh =>
        (jup.swap fresh userPublicKey,
          [ExecCall.requote (requoteParams quote), ExecCall.build fresh])

/-- The collection phase of getAllQuotes (router lines 249–269): every
executor whose canHandle is true contributes its quote when it is
non-null and good; failures contribute nothing.  Order is the executor
priority order. -/
def collectQuotes (execs : List Executor) (params : SwapParams) : List Quote :=
  (execs.filter (fun e => e.canHandle params)).filterMap (fun e =>
    match e.quote params with
    | some q => if goodQuote q then some q else none
    | none => none)

/-- Comparison used by the sort of getAllQuotes (router line 272):
descending numeric output amount. -/
def outAmountGe (a b : Quote) : Prop :=
  numVal b.outAmount ≤ numVal a.outAmount

instance : DecidableRel outAmountGe :=
  fun a b => Nat.decLe (numVal b.outAmount) (numVal a.outAmount)

instance : IsTotal Quote outAmountGe :=
  ⟨fun a b => Nat.le_total (numVal b.outAmount) (numVal a.outAmount)⟩

instance : IsTrans Quote outAmountGe :=
  ⟨fun _ _ _ h1 h2 => Nat.le_trans h2 h1⟩

/-- The stable descending sort of getAllQuotes
(`quotes.sort((a, b) => Number(b.outAmount) - Number(a.outAmount))`;
the JavaScript sort is stable). -/
def sortByOutAmount (l : List Quote) : List Quote :=
  List.insertionSort outAmountGe l

/-- getAllQuotes from the router file (lines 246–275): collect the good
quotes of every capable executor, then sort them descending by output
amount with a stable sort. -/
def getAllQuotes (execs : List Executor) (params : SwapParams) : List Quote :=
  sortByOutAmount (collectQuotes execs params)

/-- The router's lookup of the authorized builder
(`executors.find(e => e.name === 'jupiter')`) finds the Jupiter executor. -/
theorem executors_find_jupiter (env : RouterEnv) :
    (executors env).find? (fun e => e.name == jupiterName) = some (jupiterExecutor env) := by
  rfl

/-- C1: executeSwap builds directly through the Jupiter executor when the
quote's source is `jupiter` and it carries its raw payload; otherwise it
makes exactly one re-quote call to Jupiter with the quote's inputMint,
outputMint, inAmount and slippageBps, returns null with no further calls
when the re-quote fails, and otherwise builds from the fresh quote. -/
theorem executeSwap_delegation (env : RouterEnv) (quote : Quote) (userPublicKey : String) :
    ((quote.source == jupiterName && quote.raw.isSome) = true →
      executeSwap env quote userPublicKey =
        (jupiterSwap env.jupSwapF quote userPublicKey, [ExecCall.build quote])) ∧
    ((quote.source == jupiterName && quote.raw.isSome) = false →
      (jupiterQuote env.jupQuoteF (requoteParams quote) = none →
        executeSwap env quote userPublicKey =
          (none, [ExecCall.requote (requoteParams quote)])) ∧
      (∀ fresh, jupiterQuote env.jupQuoteF (requoteParams quote) = some fresh →
        executeSwap env quote userPublicKey =
          (jupiterSwap env.jupSwapF fresh userPublicKey,
            [ExecCall.requote (requoteParams quote), ExecCall.build fresh]))) := by
  have hfind := executors_find_jupiter env
  constructor
  · intro hc
    simp [executeSwap, hfind, hc, jupiterExecutor]
  · intro hc
    constructor
    · intro hq
      simp [executeSwap, hfind, hc, jupiterExecutor, hq]
    · intro fresh hq
      simp [executeSwap, hfind, hc, jupiterExecutor, hq]

/-- A RouterEnv in which every network call fails. -/
def envFail : RouterEnv :=
  { jupQuoteF := fun _ => JupFetch.failure,
    jupSwapF := fun _ _ => TxFetch.failure,
    rayQuoteF := fun _ => RayFetch.failure,
    orcaQuoteF := fun _ => OrcaFetch.failure,
    orcaSwapF := fun _ _ => TxFetch.failure,
    phxQuoteF := fun _ => PhxFetch.failure,
    phxSwapF := fun _ _ _ _ => TxFetch.failure }

/-- A winning quote sourced from Raydium (not the authorized builder). -/
def quoteRaydium : Quote :=
  { source := raydiumName, inputMint := SOL_MINT, outputMint := USDC_MINT,
    inAmount := "1000000", outAmount := "94000000", priceImpactPct := "0",
    slippageBps := 50, routePlan := [{ source := raydiumName, info := "" }],
    raw := some { payload := "ray", market := none } }

/-- Witness for the delegation specification at concrete inputs: a
Raydium-sourced quote whose Jupiter re-quote fails yields null after
exactly one re-quote call. -/
theorem executeSwap_delegation_witness :
    executeSwap envFail quoteRaydium ("wallet") =
      (none, [ExecCall.requote (requoteParams quoteRaydium)]) :=
  ((executeSwap_delegation envFail quoteRaydium ("wallet")).2 (by decide)).1 (by decide)

/-- C8: the single-hop-only Raydium executor returns null from `quote`
whenever the backend response carries a route plan with more than one
hop, and any quote it does return has a route plan of exactly one hop —
so a multi-hop Raydium quote never reaches the router. -/
theorem raydiumQuote_singleHop (envr : SwapParams → RayFetch) :
    (∀ (p : SwapParams) (status : Nat) (success : Bool) (qd : RayQuoteData)
        (plan : List Hop),
      envr p = RayFetch.resp status success (some qd) →
      qd.routePlan = some plan → 1 < plan.length →
      raydiumQuote envr p = none) ∧
    (∀ (p : SwapParams) (q : Quote),
      raydiumQuote envr p = some q → q.routePlan.length = 1) := by
  constructor
  · intro p status success qd plan henv hplan hlen
    have hne : (plan.length != 1) = true := by
      rw [bne_iff_ne]
      omega
    cases hoa : qd.outputAmount with
    | none => simp [raydiumQuote, henv, hoa]
    | some s => simp [raydiumQuote, henv, hoa, hplan, hne]
  · intro p q h
    unfold raydiumQuote at h
    cases henv : envr p with
    | failure => rw [henv] at h; cases h
    | resp status success d =>
      rw [henv] at h
      cases hst : statusOk status with
      | false => simp [hst] at h
      | true =>
        simp only [hst, Bool.not_true, Bool.false_eq_true, if_false] at h
        cases success with
        | false => simp at h
        | true =>
          simp only [Bool.not_true, Bool.false_eq_true, if_false] at h
          cases d with
          | none => cases h
          | some qd =>
            cases hoa : qd.outputAmount with
            | none => simp [hoa] at h
            | some s =>
              simp only [hoa] at h
              cases hz : (s == "" || s == "0") with
              | true => simp [hz] at h
              | false =>
                simp only [hz, Bool.false_eq_true, if_false] at h
                cases hrp : qd.routePlan with
                | none => simp [hrp] at h
                | some plan =>
                  simp only [hrp] at h
                  cases hne : (plan.length != 1) with
                  | true => simp [hne] at h
                  | false =>
                    simp only [hne, Bool.false_eq_true, if_false,
                      Option.some.injEq] at h
                    have hq : q.routePlan = plan := by
                      rw [← h]
                    rw [hq]
                    simpa using hne

/-- A two-hop route plan. -/
def rayPlanTwoHops : List Hop :=
  [{ source := "ray1", info := "" }, { source := "ray2", info := "" }]

/-- A Raydium response body carrying a two-hop route. -/
def rayDataMultiHop : RayQuoteData :=
  { inputAmount := "1000000", outputAmount := some ("94000000"),
    priceImpactPct := some ("0"), routePlan := some rayPlanTwoHops, raw := "raw" }

/-- A Raydium response environment answering a two-hop route. -/
def envRayMultiHop : SwapParams → RayFetch :=
  fun _ => RayFetch.resp 200 true (some rayDataMultiHop)

/-- A concrete swap request. -/
def paramsSolUsdc : SwapParams :=
  { inputMint := SOL_MINT, outputMint := USDC_MINT, amount := "1000000",
    slippageBps := 50 }

/-- Witness for the single-hop specification at concrete inputs: a
two-hop Raydium response yields a null quote. -/
theorem raydiumQuote_singleHop_witness :
    raydiumQuote envRayMultiHop paramsSolUsdc = none :=
  (raydiumQuote_singleHop envRayMultiHop).1 paramsSolUsdc 200 true
    rayDataMultiHop rayPlanTwoHops (by rfl) (by rfl) (by decide)

/-- A RouterEnv in which every transaction-build POST answers 200 with a
transaction and every quote fetch fails. -/
def envBuildOk : RouterEnv :=
  { jupQuoteF := fun _ => JupFetch.failure,
    jupSwapF := fun _ _ => TxFetch.resp 200 (some ("jtx")),
    rayQuoteF := fun _ => RayFetch.failure,
    orcaQuoteF := fun _ => OrcaFetch.failure,
    orcaSwapF := fun _ _ => TxFetch.resp 200 (some ("otx")),
    phxQuoteF := fun _ => PhxFetch.failure,
    phxSwapF := fun _ _ _ _ => TxFetch.resp 200 (some ("ptx")) }

/-- An Orca-sourced quote with its raw payload. -/
def quoteOrca : Quote :=
  { source := orcaName, inputMint := SOL_MINT, outputMint := USDC_MINT,
    inAmount := "1000000", outAmount := "94000000", priceImpactPct := "0",
    slippageBps := 50,
    routePlan := [{ source := "orca-whirlpool", info := "pool" }],
    raw := some { payload := "oraw", market := none } }

/-- C5 counterexample: the Orca executor's swap does NOT return null
unconditionally — on a 2xx build response it returns a SwapResult whose
source is `orca`, not the aggregator. -/
theorem nonJupiterSwap_counterexample :
    (orcaExecutor envBuildOk).swap quoteOrca ("wallet") =
      some { swapTransaction := "otx", source := orcaName } ∧
    orcaName ≠ jupiterName := by
  constructor
  · rfl
  · decide

/-- A build through `jupiterSwap` always reports source `jupiter`. -/
theorem jupiterSwap_source (f : RawPayload → String → TxFetch) (q : Quote)
    (k : String) (r : SwapResult) (h : jupiterSwap f q k = some r) :
    r.source = jupiterName := by
  unfold jupiterSwap at h
  cases hraw : q.raw with
  | none => rw [hraw] at h; cases h
  | some raw =>
    simp only [hraw] at h
    cases hf : f raw k with
    | failure => rw [hf] at h; cases h
    | resp status tx =>
      rw [hf] at h
      cases hst : statusOk status with
      | false => simp [hst] at h
      | true =>
        simp only [hst, Bool.not_true, Bool.false_eq_true, if_false] at h
        cases tx with
        | none => cases h
        | some t =>
          cases hte : (t == "") with
          | true => simp [hte] at h
          | false =>
            simp only [hte, Bool.false_eq_true, if_false, Option.some.injEq] at h
            rw [← h]

/-- C5 amended: the quote-only Raydium executor and the OpenBook executor
return null unconditionally from swap; the Orca and Phoenix executors can
build on their own (see the counterexample), but the router's executeSwap
only ever invokes the Jupiter executor's builder, so every SwapResult it
produces has source equal to the aggregator. -/
theorem singleBuilder_amended :
    (∀ (q : Quote) (k : String), raydiumSwap q k = none) ∧
    (∀ (q : Quote) (k : String), openbookSwap q k = none) ∧
    (∀ (env : RouterEnv) (q : Quote) (k : String) (r : SwapResult),
      (executeSwap env q k).1 = some r → r.source = jupiterName) := by
  refine ⟨fun _ _ => rfl, fun _ _ => rfl, ?_⟩
  intro env q k r h
  have hfind := executors_find_jupiter env
  unfold executeSwap at h
  rw [hfind] at h
  cases hc : (q.source == jupiterName && q.raw.isSome) with
  | true =>
    simp only [hc, if_true, jupiterExecutor] at h
    exact jupiterSwap_source env.jupSwapF q k r h
  | false =>
    simp only [hc, Bool.false_eq_true, if_false, jupiterExecutor] at h
    cases hq : jupiterQuote env.jupQuoteF (requoteParams q) with
    | none => rw [hq] at h; cases h
    | some fresh =>
      rw [hq] at h
      exact jupiterSwap_source env.jupSwapF fresh k r h

/-- A Jupiter-sourced quote with its raw payload. -/
def quoteJupiter : Quote :=
  { source := jupiterName, inputMint := SOL_MINT, outputMint := USDC_MINT,
    inAmount := "1000000", outAmount := "95000000", priceImpactPct := "0",
    slippageBps := 50, routePlan := [{ source := "jup", info := "" }],
    raw := some { payload := "jraw", market := none } }

/-- Witness for the amended single-builder specification at concrete
inputs: the SwapResult executeSwap produces carries source `jupiter`. -/
theorem singleBuilder_amended_witness :
    ({ swapTransaction := "jtx", source := jupiterName } : SwapResult).source =
      jupiterName :=
  singleBuilder_amended.2.2 envBuildOk quoteJupiter ("wallet")
    { swapTransaction := "jtx", source := jupiterName } (by decide)

/-- When the skip flag is set, the walk never invokes an executor under
the name `jupiter`. -/
theorem walkExecutors_no_jupiter (execs : List Executor) (params : SwapParams) :
    ∀ order : List String,
      jupiterName ∉ (walkExecutors execs true params order).2 := by
  intro order
  induction order with
  | nil => simp [walkExecutors]
  | cons n rest ih =>
    unfold walkExecutors
    cases hf : execs.find? (fun e => e.name == n) with
    | none => exact ih
    | some ex =>
      cases hn : (n == jupiterName) with
      | true => simp [hn]; exact ih
      | false =>
        have hne : jupiterName ≠ n := by
          intro he
          rw [he] at hn
          simp at hn
        simp only [hn, Bool.and_false, Bool.false_eq_true, if_false]
        cases hch : ex.canHandle params with
        | false => simp; exact ih
        | true =>
          simp only [Bool.not_true, Bool.false_eq_true, if_false]
          cases hq : ex.quote params with
          | none => simpa [hne] using ih
          | some q =>
            cases hg : goodQuote q with
            | true => simp [hg, hne]
            | false => simp only [hg, Bool.false_eq_true, if_false]; simpa [hne] using ih

/-- A small amount sets (and nothing later clears) the skip flag. -/
theorem getRouteConfig_small_skip (params : SwapParams) (ta lq : Option Nat)
    (h : numVal params.amount < SMALL_AMOUNT_THRESHOLD) :
    (getRouteConfig params ta lq).skipJupiter = true := by
  cases ta <;> cases lq <;>
    simp only [getRouteConfig, h, if_true] <;>
    split_ifs <;> rfl

/-- A fresh token age sets (and nothing later clears) the skip flag. -/
theorem getRouteConfig_fresh_skip (params : SwapParams) (t : Nat) (lq : Option Nat)
    (h : t < 48 * 60 * 60 * 1000) :
    (getRouteConfig params (some t) lq).skipJupiter = true := by
  cases lq <;>
    simp only [getRouteConfig, h, if_true] <;>
    split_ifs <;> rfl

/-- C7: for an amount below the small-trade threshold the aggregator is
never the first executor attempted — the skip flag keeps Jupiter out of
the walk entirely, and the computed order never starts with `jupiter`. -/
theorem smallAmount_deprioritizes (execs : List Executor) (params : SwapParams)
    (ta lq : Option Nat) (h : numVal params.amount < SMALL_AMOUNT_THRESHOLD) :
    jupiterName ∉ (getBestQuote execs params ta lq).2 ∧
    (getRouteConfig params ta lq).executorOrder.head? ≠ some jupiterName := by
  constructor
  · have hskip := getRouteConfig_small_skip params ta lq h
    simp only [getBestQuote]
    rw [hskip]
    exact walkExecutors_no_jupiter execs params _
  · cases ta <;> cases lq <;>
      simp only [getRouteConfig, h, if_true] <;> split_ifs <;> decide

/-- Concrete small-amount request (100000 base units, below 500000). -/
def paramsSmall : SwapParams :=
  { inputMint := SOL_MINT, outputMint := USDC_MINT, amount := "100000",
    slippageBps := 50 }

/-- Witness for the small-amount specification at concrete inputs. -/
theorem smallAmount_deprioritizes_witness :
    jupiterName ∉ (getBestQuote (executors envFail) paramsSmall none none).2 ∧
    (getRouteConfig paramsSmall none none).executorOrder.head? ≠ some jupiterName :=
  smallAmount_deprioritizes (executors envFail) paramsSmall none none (by decide)

/-- C9: a small amount or a fresh token age removes the aggregator from
the walk entirely — getBestQuote never invokes Jupiter's quote operation,
whatever the other executors answer. -/
theorem skipFlag_removes_aggregator (execs : List Executor) (params : SwapParams)
    (ta lq : Option Nat)
    (h : numVal params.amount < SMALL_AMOUNT_THRESHOLD ∨
      ∃ t, ta = some t ∧ t < 48 * 60 * 60 * 1000) :
    jupiterName ∉ (getBestQuote execs params ta lq).2 := by
  have hskip : (getRouteConfig params ta lq).skipJupiter = true := by
    rcases h with h | ⟨t, hta, ht⟩
    · exact getRouteConfig_small_skip params ta lq h
    · rw [hta]
      exact getRouteConfig_fresh_skip params t lq ht
  simp only [getBestQuote]
  rw [hskip]
  exact walkExecutors_no_jupiter execs params _

/-- Witness for the skip-flag specification at concrete inputs: a large
amount with a fresh token age still keeps Jupiter out of the walk. -/
theorem skipFlag_removes_aggregator_witness :
    jupiterName ∉ (getBestQuote (executors envFail) paramsSolUsdc (some 0) none).2 :=
  skipFlag_removes_aggregator (executors envFail) paramsSolUsdc (some 0) none
    (Or.inr ⟨0, rfl, by decide⟩)

/-- C10: a later heuristic's order replaces an earlier one wholesale while
boolean flags persist — a small-amount stable-pair swap ends with the
stable-pair order (phoenix first, jupiter second) yet skipJupiter stays
true, so the aggregator is still skipped in the walk. -/
theorem routeConfig_override_semantics (execs : List Executor) (params : SwapParams)
    (ta lq : Option Nat)
    (hsmall : numVal params.amount < SMALL_AMOUNT_THRESHOLD)
    (hstable : isStablePair params = true) :
    (getRouteConfig params ta lq).executorOrder = stablePairOrder ∧
    (getRouteConfig params ta lq).skipJupiter = true ∧
    jupiterName ∉ (getBestQuote execs params ta lq).2 := by
  refine ⟨?_, getRouteConfig_small_skip params ta lq hsmall, ?_⟩
  · cases ta <;> cases lq <;>
      simp only [getRouteConfig, hsmall, hstable, if_true] <;>
      split_ifs <;> rfl
  · have hskip := getRouteConfig_small_skip params ta lq hsmall
    simp only [getBestQuote]
    rw [hskip]
    exact walkExecutors_no_jupiter execs params _

/-- Concrete small-amount stable-pair request. -/
def paramsStableSmall : SwapParams :=
  { inputMint := USDC_MINT, outputMint := USDT_MINT, amount := "100000",
    slippageBps := 50 }

/-- Witness for the override-semantics specification at concrete inputs. -/
theorem routeConfig_override_semantics_witness :
    (getRouteConfig paramsStableSmall none none).executorOrder = stablePairOrder ∧
    (getRouteConfig paramsStableSmall none none).skipJupiter = true ∧
    jupiterName ∉ (getBestQuote (executors envFail) paramsStableSmall none none).2 :=
  routeConfig_override_semantics (executors envFail) paramsStableSmall none none
    (by decide) (by decide)

/-- Any quote the Jupiter executor returns has a non-empty route plan and
a non-empty, non-zero output amount copied from the backend response. -/
theorem jupiterQuote_valid (f : SwapParams → JupFetch) (p : SwapParams) (q : Quote)
    (h : jupiterQuote f p = some q) :
    q.routePlan ≠ [] ∧ q.outAmount ≠ "" ∧ q.outAmount ≠ "0" ∧
      ∃ status d, f p = JupFetch.resp status d ∧ d.outAmount = some q.outAmount := by
  unfold jupiterQuote at h
  cases henv : f p with
  | failure => rw [henv] at h; cases h
  | resp status d =>
    rw [henv] at h
    cases hst : statusOk status with
    | false => simp [hst] at h
    | true =>
      simp only [hst, Bool.not_true, Bool.false_eq_true, if_false] at h
      cases hoa : d.outAmount with
      | none => rw [hoa] at h; cases h
      | some s =>
        rw [hoa] at h
        cases hz : (s == "" || s == "0") with
        | true => simp [hz] at h
        | false =>
          simp only [hz, Bool.false_eq_true, if_false] at h
          cases hrp : d.routePlan with
          | none => rw [hrp] at h; cases h
          | some plan =>
            rw [hrp] at h
            cases plan with
            | nil => cases h
            | cons hd tl =>
              simp only [Option.some.injEq] at h
              rw [← h]
              simp only [Bool.or_eq_false_iff] at hz
              obtain ⟨hz1, hz2⟩ := hz
              refine ⟨by simp, by simpa using hz1, by simpa using hz2,
                status, d, rfl, hoa⟩

/-- Any quote the quote-only Raydium executor returns has a one-hop route
plan and a non-empty, non-zero output amount copied from the response. -/
theorem raydiumQuote_valid (f : SwapParams → RayFetch) (p : SwapParams) (q : Quote)
    (h : raydiumQuote f p = some q) :
    q.routePlan ≠ [] ∧ q.outAmount ≠ "" ∧ q.outAmount ≠ "0" ∧
      ∃ status success qd, f p = RayFetch.resp status success (some qd) ∧
        qd.outputAmount = some q.outAmount := by
  unfold raydiumQuote at h
  cases henv : f p with
  | failure => rw [henv] at h; cases h
  | resp status success d =>
    rw [henv] at h
    cases hst : statusOk status with
    | false => simp [hst] at h
    | true =>
      simp only [hst, Bool.not_true, Bool.false_eq_true, if_false] at h
      cases success with
      | false => simp at h
      | true =>
        simp only [Bool.not_true, Bool.false_eq_true, if_false] at h
        cases d with
        | none => cases h
        | some qd =>
          cases hoa : qd.outputAmount with
          | none => simp [hoa] at h
          | some s =>
            simp only [hoa] at h
            cases hz : (s == "" || s == "0") with
            | true => simp [hz] at h
            | false =>
              simp only [hz, Bool.false_eq_true, if_false] at h
              cases hrp : qd.routePlan with
              | none => simp [hrp] at h
              | some plan =>
                simp only [hrp] at h
                cases hne : (plan.length != 1) with
                | true => simp [hne] at h
                | false =>
                  simp only [hne, Bool.false_eq_true, if_false,
                    Option.some.injEq] at h
                  simp only [Bool.or_eq_false_iff] at hz
                  obtain ⟨hz1, hz2⟩ := hz
                  have hlen : plan.length = 1 := by simpa using hne
                  have hq1 : q.routePlan = plan := by rw [← h]
                  have hq2 : q.outAmount = s := by rw [← h]
                  refine ⟨?_, ?_, ?_, status, true, qd, rfl, ?_⟩
                  · rw [hq1]
                    intro hnil
                    rw [hnil] at hlen
                    simp at hlen
                  · rw [hq2]
                    simpa using hz1
                  · rw [hq2]
                    simpa using hz2
                  · rw [hq2]
                    exact hoa

/-- Any quote the Orca executor returns has a singleton route plan and a
non-empty, non-zero output amount copied from the response. -/
theorem orcaQuote_valid (f : SwapParams → OrcaFetch) (p : SwapParams) (q : Quote)
    (h : orcaQuote f p = some q) :
    q.routePlan ≠ [] ∧ q.outAmount ≠ "" ∧ q.outAmount ≠ "0" ∧
      ∃ status d, f p = OrcaFetch.resp status d ∧
        d.estimatedAmountOut = some q.outAmount := by
  unfold orcaQuote at h
  cases henv : f p with
  | failure => rw [henv] at h; cases h
  | resp status d =>
    rw [henv] at h
    cases hst : statusOk status with
    | false => simp [hst] at h
    | true =>
      simp only [hst, Bool.not_true, Bool.false_eq_true, if_false] at h
      cases hoa : d.estimatedAmountOut with
      | none => rw [hoa] at h; cases h
      | some s =>
        rw [hoa] at h
        cases hz : (s == "" || s == "0") with
        | true => simp [hz] at h
        | false =>
          simp only [hz, Bool.false_eq_true, if_false, Option.some.injEq] at h
          rw [← h]
          simp only [Bool.or_eq_false_iff] at hz
          obtain ⟨hz1, hz2⟩ := hz
          exact ⟨by simp, by simpa using hz1, by simpa using hz2,
            status, d, rfl, hoa⟩

/-- Any quote the Phoenix executor returns has a singleton route plan and
a non-empty, non-zero output amount copied from the response. -/
theorem phoenixQuote_valid (f : SwapParams → PhxFetch) (p : SwapParams) (q : Quote)
    (h : phoenixQuote f p = some q) :
    q.routePlan ≠ [] ∧ q.outAmount ≠ "" ∧ q.outAmount ≠ "0" ∧
      ∃ status d, f p = PhxFetch.resp status d ∧
        d.expectedOutput = some q.outAmount := by
  unfold phoenixQuote at h
  cases hm : findMarket PHOENIX_MARKETS p.inputMint p.outputMint with
  | none => rw [hm] at h; cases h
  | some market =>
    rw [hm] at h
    cases henv : f p with
    | failure => rw [henv] at h; cases h
    | resp status d =>
      rw [henv] at h
      cases hst : statusOk status with
      | false => simp [hst] at h
      | true =>
        simp only [hst, Bool.not_true, Bool.false_eq_true, if_false] at h
        cases hoa : d.expectedOutput with
        | none => rw [hoa] at h; cases h
        | some s =>
          rw [hoa] at h
          cases hz : (s == "" || s == "0") with
          | true => simp [hz] at h
          | false =>
            simp only [hz, Bool.false_eq_true, if_false, Option.some.injEq] at h
            rw [← h]
            simp only [Bool.or_eq_false_iff] at hz
            obtain ⟨hz1, hz2⟩ := hz
            exact ⟨by simp, by simpa using hz1, by simpa using hz2,
              status, d, rfl, hoa⟩

/-- The OpenBook executor's quote is always null. -/
theorem openbookQuote_none (p : SwapParams) : openbookQuote p = none := by
  unfold openbookQuote
  cases findMarket OPENBOOK_MARKETS p.inputMint p.outputMint <;> rfl

/-- A quote returned by the walk comes from some executor of the set and
passes the router's goodQuote check. -/
theorem walkExecutors_result (execs : List Executor) (skip : Bool) (params : SwapParams) :
    ∀ (order : List String) (q : Quote),
      (walkExecutors execs skip params order).1 = some q →
      ∃ ex, ex ∈ execs ∧ ex.quote params = some q ∧ goodQuote q = true := by
  intro order
  induction order with
  | nil => intro q h; simp [walkExecutors] at h
  | cons n rest ih =>
    intro q h
    unfold walkExecutors at h
    cases hf : execs.find? (fun e => e.name == n) with
    | none => rw [hf] at h; exact ih q h
    | some ex =>
      rw [hf] at h
      cases hskip : (skip && n == jupiterName) with
      | true => simp only [hskip, if_true] at h; exact ih q h
      | false =>
        simp only [hskip, Bool.false_eq_true, if_false] at h
        cases hch : ex.canHandle params with
        | false => simp only [hch, Bool.not_false, if_true] at h; exact ih q h
        | true =>
          simp only [hch, Bool.not_true, Bool.false_eq_true, if_false] at h
          cases hq : ex.quote params with
          | none => simp only [hq] at h; exact ih q h
          | some q2 =>
            simp only [hq] at h
            cases hg : goodQuote q2 with
            | true =>
              simp only [hg, if_true, Option.some.injEq] at h
              subst h
              exact ⟨ex, List.mem_of_find?_eq_some hf, hq, hg⟩
            | false =>
              simp only [hg, Bool.false_eq_true, if_false] at h
              exact ih q h

/-- The backends' output-amount strings are canonical decimal renderings
of numbers (as the live JSON APIs produce). -/
def canonicalAmounts (env : RouterEnv) : Prop :=
  (∀ (p : SwapParams) (status : Nat) (d : JupQuoteData) (s : String),
    env.jupQuoteF p = JupFetch.resp status d → d.outAmount = some s →
    ∃ n, s = Nat.repr n) ∧
  (∀ (p : SwapParams) (status : Nat) (success : Bool) (qd : RayQuoteData) (s : String),
    env.rayQuoteF p = RayFetch.resp status success (some qd) →
    qd.outputAmount = some s → ∃ n, s = Nat.repr n) ∧
  (∀ (p : SwapParams) (status : Nat) (d : OrcaQuoteData) (s : String),
    env.orcaQuoteF p = OrcaFetch.resp status d → d.estimatedAmountOut = some s →
    ∃ n, s = Nat.repr n) ∧
  (∀ (p : SwapParams) (status : Nat) (d : PhxQuoteData) (s : String),
    env.phxQuoteF p = PhxFetch.resp status d → d.expectedOutput = some s →
    ∃ n, s = Nat.repr n)

/-- A canonical non-zero-string amount is a positive number. -/
theorem repr_pos_of_ne_zero (s : String) (hnz : s ≠ "0")
    (hc : ∃ n, s = Nat.repr n) : ∃ n, s = Nat.repr n ∧ 0 < n := by
  obtain ⟨n, hn⟩ := hc
  refine ⟨n, hn, ?_⟩
  rcases Nat.eq_zero_or_pos n with h0 | hpos
  · subst h0
    exact absurd hn hnz
  · exact hpos

/-- C4: over canonical backends, every quote getBestQuote returns has a
non-empty route plan and a positive output amount; a Jupiter response
with zero output or an empty route plan collapses to null at the executor
boundary; and a null or not-good quote from the executor at the head of
the order makes the walk return the result of the remaining order. -/
theorem bestQuote_invariant (env : RouterEnv) (hcanon : canonicalAmounts env) :
    (∀ (params : SwapParams) (ta lq : Option Nat) (q : Quote),
      (getBestQuote (executors env) params ta lq).1 = some q →
      q.routePlan ≠ [] ∧ ∃ n, q.outAmount = Nat.repr n ∧ 0 < n) ∧
    (∀ (p : SwapParams) (status : Nat) (d : JupQuoteData),
      env.jupQuoteF p = JupFetch.resp status d →
      (d.outAmount = some ("0") ∨ d.routePlan = some ([])) →
      jupiterQuote env.jupQuoteF p = none) ∧
    (∀ (skip : Bool) (pp : SwapParams) (n : String) (rest : List String) (ex : Executor),
      (executors env).find? (fun e => e.name == n) = some ex →
      (skip && n == jupiterName) = false → ex.canHandle pp = true →
      (ex.quote pp = none ∨ ∃ q2, ex.quote pp = some q2 ∧ goodQuote q2 = false) →
      (walkExecutors (executors env) skip pp (n :: rest)).1 =
        (walkExecutors (executors env) skip pp rest).1) := by
  refine ⟨?_, ?_, ?_⟩
  · intro params ta lq q h
    simp only [getBestQuote] at h
    obtain ⟨ex, hmem, hq, hg⟩ := walkExecutors_result (executors env) _ params _ q h
    simp only [executors, List.mem_cons, List.not_mem_nil, or_false] at hmem
    rcases hmem with rfl | rfl | rfl | rfl | rfl
    · simp only [jupiterExecutor] at hq
      obtain ⟨hplan, hne, hnz, status, d, henv, hoa⟩ := jupiterQuote_valid _ _ _ hq
      exact ⟨hplan, repr_pos_of_ne_zero _ hnz
        (hcanon.1 params status d q.outAmount henv hoa)⟩
    · simp only [raydiumExecutor] at hq
      obtain ⟨hplan, hne, hnz, status, success, qd, henv, hoa⟩ :=
        raydiumQuote_valid _ _ _ hq
      exact ⟨hplan, repr_pos_of_ne_zero _ hnz
        (hcanon.2.1 params status success qd q.outAmount henv hoa)⟩
    · simp only [orcaExecutor] at hq
      obtain ⟨hplan, hne, hnz, status, d, henv, hoa⟩ := orcaQuote_valid _ _ _ hq
      exact ⟨hplan, repr_pos_of_ne_zero _ hnz
        (hcanon.2.2.1 params status d q.outAmount henv hoa)⟩
    · simp only [phoenixExecutor] at hq
      obtain ⟨hplan, hne, hnz, status, d, henv, hoa⟩ := phoenixQuote_valid _ _ _ hq
      exact ⟨hplan, repr_pos_of_ne_zero _ hnz
        (hcanon.2.2.2 params status d q.outAmount henv hoa)⟩
    · simp only [openbookExecutor] at hq
      rw [openbookQuote_none params] at hq
      cases hq
  · intro p status d henv hzero
    rcases hzero with hz | hz
    · cases hst : statusOk status with
      | false => simp [jupiterQuote, henv, hst]
      | true => simp [jupiterQuote, henv, hst, hz]
    · cases hoa : d.outAmount with
      | none => simp [jupiterQuote, henv, hoa]
      | some s => simp [jupiterQuote, henv, hoa, hz]
  · intro skip pp n rest ex hf hskip hch hq
    rcases hq with hq | ⟨q2, hq, hg⟩
    · simp [walkExecutors, hf, hskip, hch, hq]
    · simp [walkExecutors, hf, hskip, hch, hq, hg]

/-- A Jupiter quote response with output 95000000 over a two-hop route. -/
def jupDataGood : JupQuoteData :=
  { inAmount := "100000000", outAmount := some ("95000000"),
    priceImpactPct := some ("0"),
    routePlan := some [{ source := "jup1", info := "" }, { source := "jup2", info := "" }],
    raw := "jraw" }

/-- A RouterEnv in which Jupiter answers `jupDataGood` and every other
backend fails. -/
def envGood : RouterEnv :=
  { jupQuoteF := fun _ => JupFetch.resp 200 jupDataGood,
    jupSwapF := fun _ _ => TxFetch.failure,
    rayQuoteF := fun _ => RayFetch.failure,
    orcaQuoteF := fun _ => OrcaFetch.failure,
    orcaSwapF := fun _ _ => TxFetch.failure,
    phxQuoteF := fun _ => PhxFetch.failure,
    phxSwapF := fun _ _ _ _ => TxFetch.failure }

/-- The output amounts of `envGood` are canonical decimals. -/
theorem envGood_canonical : canonicalAmounts envGood := by
  refine ⟨?_, ?_, ?_, ?_⟩
  · intro p status d s h1 h2
    simp only [envGood, JupFetch.resp.injEq] at h1
    obtain ⟨-, rfl⟩ := h1
    simp only [jupDataGood, Option.some.injEq] at h2
    exact ⟨95000000, by rw [← h2]; decide⟩
  · intro p status success qd s h1 h2
    simp [envGood] at h1
  · intro p status d s h1 h2
    simp [envGood] at h1
  · intro p status d s h1 h2
    simp [envGood] at h1

/-- A large non-stable swap request. -/
def bigTradeParams : SwapParams :=
  { inputMint := "X", outputMint := "Y", amount := "100000000", slippageBps := 50 }

/-- The quote the Jupiter executor builds from `jupDataGood`. -/
def quoteJupGood : Quote :=
  { source := jupiterName, inputMint := "X", outputMint := "Y",
    inAmount := "100000000", outAmount := "95000000", priceImpactPct := "0",
    slippageBps := 50,
    routePlan := [{ source := "jup1", info := "" }, { source := "jup2", info := "" }],
    raw := some { payload := "jraw", market := none } }

/-- Witness for the invariant specification at concrete inputs: the quote
won by the aggregator has a non-empty plan and a positive output. -/
theorem bestQuote_invariant_witness :
    quoteJupGood.routePlan ≠ [] ∧
      ∃ n, quoteJupGood.outAmount = Nat.repr n ∧ 0 < n :=
  (bestQuote_invariant envGood envGood_canonical).1 bigTradeParams none none
    quoteJupGood (by decide)

/-- The quote membership test of collectQuotes: exactly the good quotes of
capable executors. -/
theorem collectQuotes_mem (execs : List Executor) (params : SwapParams) (q : Quote) :
    q ∈ collectQuotes execs params ↔
      ∃ ex, ex ∈ execs ∧ ex.canHandle params = true ∧
        ex.quote params = some q ∧ goodQuote q = true := by
  unfold collectQuotes
  rw [List.mem_filterMap]
  constructor
  · rintro ⟨e, he, hfe⟩
    rw [List.mem_filter] at he
    obtain ⟨hmem, hch⟩ := he
    refine ⟨e, hmem, hch, ?_⟩
    cases hq : e.quote params with
    | none => rw [hq] at hfe; cases hfe
    | some q2 =>
      rw [hq] at hfe
      cases hg : goodQuote q2 with
      | false => simp [hg] at hfe
      | true =>
        simp only [hg, if_true, Option.some.injEq] at hfe
        subst hfe
        exact ⟨rfl, hg⟩
  · rintro ⟨e, hmem, hch, hq, hg⟩
    refine ⟨e, List.mem_filter.mpr ⟨hmem, hch⟩, ?_⟩
    simp [hq, hg]

/-- Filtering for one key commutes with an ordered insertion: the skipped
prefix holds strictly greater keys only, so the key's occurrences keep
their relative order. -/
theorem filter_orderedInsert (x : Quote) (k : Nat) :
    ∀ m : List Quote,
      (List.orderedInsert outAmountGe x m).filter
          (fun q => numVal q.outAmount == k) =
        (if numVal x.outAmount == k then [x] else []) ++
          m.filter (fun q => numVal q.outAmount == k) := by
  intro m
  induction m with
  | nil =>
    cases hpx : (numVal x.outAmount == k) <;>
      simp [List.orderedInsert, List.filter, hpx]
  | cons b l ih =>
    by_cases hr : outAmountGe x b
    · rw [List.orderedInsert, if_pos hr]
      cases hpx : (numVal x.outAmount == k) <;>
        simp [List.filter_cons, hpx]
    · rw [List.orderedInsert, if_neg hr]
      cases hpb : (numVal b.outAmount == k) with
      | true =>
        have hlt : numVal x.outAmount < numVal b.outAmount :=
          Nat.lt_of_not_le (fun hle => hr hle)
        have hbk : numVal b.outAmount = k := by simpa using hpb
        have hxk : (numVal x.outAmount == k) = false := by
          rw [beq_eq_false_iff_ne]
          omega
        simp [List.filter_cons, hpb, hxk, ih]
      | false =>
        simp [List.filter_cons, hpb, ih]

/-- Stability of the sort: for every key, the sorted list carries the
key's quotes in their original relative order. -/
theorem sortByOutAmount_stable (k : Nat) :
    ∀ l : List Quote,
      (sortByOutAmount l).filter (fun q => numVal q.outAmount == k) =
        l.filter (fun q => numVal q.outAmount == k) := by
  intro l
  induction l with
  | nil => rfl
  | cons x xs ih =>
    simp only [sortByOutAmount, List.insertionSort] at ih ⊢
    rw [filter_orderedInsert x k (List.insertionSort outAmountGe xs), ih]
    cases hpx : (numVal x.outAmount == k) <;> simp [List.filter_cons, hpx]

/-- Stub executor A: always capable, quotes output 100. -/
def stubQuoteA : Quote :=
  { source := "A", inputMint := "X", outputMint := "Y", inAmount := "100000000",
    outAmount := "100", priceImpactPct := "0", slippageBps := 50,
    routePlan := [{ source := "A", info := "" }], raw := none }

/-- Stub executor C's quote: output 150. -/
def stubQuoteC : Quote :=
  { source := "C", inputMint := "X", outputMint := "Y", inAmount := "100000000",
    outAmount := "150", priceImpactPct := "0", slippageBps := 50,
    routePlan := [{ source := "C", info := "" }], raw := none }

/-- Stub executor A. -/
def stubExecA : Executor :=
  { name := "A", canHandle := fun _ => true, quote := fun _ => some stubQuoteA,
    swap := fun _ _ => none }

/-- Stub executor B: its quote fails. -/
def stubExecB : Executor :=
  { name := "B", canHandle := fun _ => true, quote := fun _ => none,
    swap := fun _ _ => none }

/-- Stub executor C. -/
def stubExecC : Executor :=
  { name := "C", canHandle := fun _ => true, quote := fun _ => some stubQuoteC,
    swap := fun _ _ => none }

/-- The stub executor set {A → 100, B → fails, C → 150}. -/
def stubExecs : List Executor := [stubExecA, stubExecB, stubExecC]

/-- The stub request. -/
def stubParams : SwapParams :=
  { inputMint := "X", outputMint := "Y", amount := "100000000", slippageBps := 50 }

/-- C6: getAllQuotes returns a permutation of exactly the fulfilled,
non-null, good quotes of the capable executors (a failing executor
contributes nothing), sorted descending by numeric output amount; the
sort is stable, so equal amounts keep the executor priority order; and
over the stub set {A → 100, B → fails, C → 150} it returns [C, A]. -/
theorem getAllQuotes_spec :
    (∀ (execs : List Executor) (params : SwapParams),
      (getAllQuotes execs params).Perm (collectQuotes execs params)) ∧
    (∀ (execs : List Executor) (params : SwapParams),
      List.Sorted outAmountGe (getAllQuotes execs params)) ∧
    (∀ (execs : List Executor) (params : SwapParams) (q : Quote),
      q ∈ getAllQuotes execs params ↔
        ∃ ex, ex ∈ execs ∧ ex.canHandle params = true ∧
          ex.quote params = some q ∧ goodQuote q = true) ∧
    (∀ (l : List Quote) (k : Nat),
      (sortByOutAmount l).filter (fun q => numVal q.outAmount == k) =
        l.filter (fun q => numVal q.outAmount == k)) ∧
    getAllQuotes stubExecs stubParams = [stubQuoteC, stubQuoteA] := by
  refine ⟨?_, ?_, ?_, ?_, ?_⟩
  · intro execs params
    exact List.perm_insertionSort outAmountGe (collectQuotes execs params)
  · intro execs params
    exact List.sorted_insertionSort outAmountGe (collectQuotes execs params)
  · intro execs params q
    unfold getAllQuotes sortByOutAmount
    rw [List.mem_insertionSort]
    exact collectQuotes_mem execs params q
  · intro l k
    exact sortByOutAmount_stable k l
  · decide
